import Mathlib

/-!
Shallow embedding of the user-management CLI (`app/cli.py`).

The command layer is translated directly from `app/cli.py`.  The `User`
model and the session/store gateway live in `app/models.py` and
`app/database.py`, which are not part of the sources at hand; those parts
are modelled from the specification (uniqueness constraints on `username`
and `email` enforced by the store, rollback on constraint violation,
store-assigned surrogate `id`, password hashed before storage).  Each
command maps a store state to a `CmdOut`: the store after the command,
the printed lines, and whether an exception escaped the command
(`uncaught = true` models a non-zero process exit).
-/

/-- A `User` row: surrogate `id`, `username`, `email`, `password` (a hash). -/
structure User where
  id : Nat
  username : String
  email : String
  password : String
  deriving DecidableEq

/-- The backing store: the live `User` rows in stored (insertion) order,
plus the next surrogate key the store will assign. -/
structure Store where
  rows : List User
  nextId : Nat
  deriving DecidableEq

/-- A store with freshly created, empty tables. -/
def emptyStore : Store := { rows := [], nextId := 1 }

/-- Modelled from the spec: passwords are "stored as a hash, never in clear
text at rest"; the hashing scheme is left unspecified by the spec
(`app/models.py` is not among the sources), so it is modelled as an
injective tagging function. -/
def hashPw (p : String) : String := "hashed:" ++ p

/-- Modelled from the spec: the `User` constructor (`app/models.py`, not
among the sources) takes `username`, `email`, `password` and hashes the
password before storage; `id` is the store-assigned surrogate key. -/
def mkUser (i : Nat) (username email password : String) : User :=
  { id := i, username := username, email := email, password := hashPw password }

/-- Modelled from the spec: `print(user)` echoes the record. -/
def showUser (u : User) : String :=
  toString u.id ++ " - " ++ u.username ++ " - " ++ u.email

/-- Result of one command invocation: the store afterwards, the printed
lines, and whether a store-level error escaped the command uncaught
(non-zero exit). -/
structure CmdOut where
  store : Store
  output : List String
  uncaught : Bool
  deriving DecidableEq

/-- Prefix test on char lists: `strStarts needle hay` means `needle` is a prefix of `hay`. -/
def strStarts : List Char → List Char → Bool
  | [], _ => true
  | _ :: _, [] => false
  | a :: as, b :: bs => a == b && strStarts as bs

/-- Containment on char lists: `charsContain hay needle` means `needle` occurs contiguously in `hay`. -/
def charsContain : List Char → List Char → Bool
  | [], needle => needle.isEmpty
  | h :: t, needle => strStarts needle (h :: t) || charsContain t needle

/-- Substring containment, the semantics of the substring-contains
predicate of the gateway (`User.username.contains(query)` in
`get_user`, i.e. SQL `LIKE %query%`). -/
def strContains (hay needle : String) : Bool :=
  charsContain hay.toList needle.toList

/-- The store-level uniqueness check an insert is subject to: some live row
already carries the same `username` or the same `email`.  Modelled from the
spec: `username` and `email` are each unique across all live rows and a
violating insert raises (IntegrityError) and is rolled back. -/
def dupCheck (s : Store) (username email : String) : Bool :=
  s.rows.any (fun v => v.username == username || v.email == email)

/-- The lookup `db.exec(select(User).where(User.username == username)).first()`. -/
def findByUsername (s : Store) (username : String) : Option User :=
  s.rows.find? (fun v => v.username == username)

/-- The store-level uniqueness check an email update is subject to: some
other row (different surrogate key) already carries `email`.  Modelled from
the uniqueness constraint of the spec on `email`. -/
def emailConflict (s : Store) (selfId : Nat) (email : String) : Bool :=
  s.rows.any (fun v => v.id != selfId && v.email == email)

/-- Command `initialize` in `app/cli.py`: drop all tables, recreate them, insert
the seed user `bob`/`bob@mail.com`/hashed `bobpass`, commit, print
"Database Initialized".  The prior store contents are discarded. -/
def initCmd (_s : Store) : CmdOut :=
  { store := { rows := [mkUser emptyStore.nextId "bob" "bob@mail.com" "bobpass"],
               nextId := emptyStore.nextId + 1 },
    output := ["Database Initialized"],
    uncaught := false }

/-- The rows `get_user` selects: username OR email contains the query. -/
def getUserMatches (s : Store) (q : String) : List User :=
  s.rows.filter (fun u => strContains u.username q || strContains u.email q)

/-- Command `get_user` in `app/cli.py`: print every match, or "No users found". -/
def getUserCmd (s : Store) (q : String) : CmdOut :=
  { store := s,
    output := if (getUserMatches s q).isEmpty then ["No users found"]
              else (getUserMatches s q).map showUser,
    uncaught := false }

def defaultLimit : Nat := 10

def defaultOffset : Nat := 0

/-- The rows `get_all_users` selects:
`select(User).offset(offset).limit(limit)`. -/
def getAllUsersList (s : Store) (limit offset : Nat) : List User :=
  (s.rows.drop offset).take limit

/-- Command `get_all_users` in `app/cli.py`: print the page, or "No users found". -/
def getAllUsersCmd (s : Store) (limit offset : Nat) : CmdOut :=
  { store := s,
    output := if (getAllUsersList s limit offset).isEmpty then ["No users found"]
              else (getAllUsersList s limit offset).map showUser,
    uncaught := false }

/-- Command `get_all_users` invoked without options (`--limit` defaults to 10,
`--offset` defaults to 0). -/
def getAllUsersDefault (s : Store) : CmdOut :=
  getAllUsersCmd s defaultLimit defaultOffset

/-- The row update `change_email` commits: `UPDATE ... SET email WHERE id = selfId`. -/
def updateEmailRows (rows : List User) (selfId : Nat) (new_email : String) : List User :=
  rows.map (fun v => if v.id == selfId then { v with email := new_email } else v)

/-- Command `change_email` in `app/cli.py`: find by exact username; if absent,
report not-found; else set the email and commit.  The command has no
try/except: a uniqueness violation on commit escapes uncaught (the
store-level transaction is rolled back, per the gateway contract in the spec,
so the store is unchanged). -/
def changeEmailCmd (s : Store) (username new_email : String) : CmdOut :=
  match findByUsername s username with
  | none =>
    { store := s,
      output := [username ++ " not found! Unable to update email."],
      uncaught := false }
  | some user =>
    if emailConflict s user.id new_email then
      { store := s, output := [], uncaught := true }
    else
      { store := { s with rows := updateEmailRows s.rows user.id new_email },
        output := ["Updated " ++ user.username ++ "\x27s email to " ++ new_email],
        uncaught := false }

/-- Command `create_user` in `app/cli.py`: insert a new `User`; on IntegrityError
(duplicate username or email) roll back and print
"Username or email already taken!"; otherwise print the created record. -/
def createUserCmd (s : Store) (username email password : String) : CmdOut :=
  if dupCheck s username email then
    { store := s, output := ["Username or email already taken!"], uncaught := false }
  else
    { store := { rows := s.rows ++ [mkUser s.nextId username email password],
                 nextId := s.nextId + 1 },
      output := [showUser (mkUser s.nextId username email password)],
      uncaught := false }

/-- Command `delete_user` in `app/cli.py`: find by exact username; if absent,
report not-found; else delete the row and commit. -/
def deleteUserCmd (s : Store) (username : String) : CmdOut :=
  match findByUsername s username with
  | none =>
    { store := s,
      output := [username ++ " not found! Unable to delete user."],
      uncaught := false }
  | some user =>
    { store := { s with rows := s.rows.filter (fun v => v.id != user.id) },
      output := [username ++ " deleted"],
      uncaught := false }

/-- One CLI invocation, as an operation on the store. -/
inductive Op where
  | opInit
  | opGetUser (q : String)
  | opGetAll (limit offset : Nat)
  | opChangeEmail (u e : String)
  | opCreate (u e p : String)
  | opDelete (u : String)
  deriving DecidableEq

/-- Run one command against the store. -/
def runOp (s : Store) (o : Op) : CmdOut :=
  match o with
  | .opInit => initCmd s
  | .opGetUser q => getUserCmd s q
  | .opGetAll limit offset => getAllUsersCmd s limit offset
  | .opChangeEmail u e => changeEmailCmd s u e
  | .opCreate u e p => createUserCmd s u e p
  | .opDelete u => deleteUserCmd s u

/-- The store after one command. -/
def step (s : Store) (o : Op) : Store := (runOp s o).store

/-- A store state reachable from fresh, empty tables by a sequence of CLI
invocations. -/
def Reachable (s : Store) : Prop :=
  ∃ ops : List Op, s = ops.foldl step emptyStore

/-- Pairwise distinctness that the constraints of the store maintain
between two live rows: distinct surrogate keys, usernames and emails. -/
def RowRel (a b : User) : Prop :=
  a.id ≠ b.id ∧ a.username ≠ b.username ∧ a.email ≠ b.email

/-- The store invariant: rows pairwise distinct in id, username and email,
and every assigned id below the next fresh one. -/
def StoreInv (s : Store) : Prop :=
  s.rows.Pairwise RowRel ∧ ∀ u ∈ s.rows, u.id < s.nextId

instance : DecidablePred StoreInv := fun s => by
  unfold StoreInv RowRel
  infer_instance

/-- The store seeded by `initialize`. -/
def bobStore : Store := (initCmd emptyStore).store

/-- A two-user store used as a concrete scenario: `initialize`, then a
successful `create_user bo bo@mail.com pw`. -/
def twoUserStore : Store := (createUserCmd bobStore "bo" "bo@mail.com" "pw").store

/-! ### General helper lemmas -/

theorem strStarts_refl (l : List Char) : strStarts l l = true := by
  induction l with
  | nil => rfl
  | cons a t ih => simp [strStarts, ih]

theorem strContains_refl (s : String) : strContains s s = true := by
  unfold strContains
  cases h : s.toList with
  | nil => rfl
  | cons a t => simp [charsContain, strStarts_refl]

theorem rowRel_symm : Symmetric RowRel := by
  intro a b h
  exact ⟨h.1.symm, h.2.1.symm, h.2.2.symm⟩

theorem countP_one_of_pairwise {α : Type} (p : α → Bool) :
    ∀ l : List α, l.Pairwise (fun a b => ¬(p a = true ∧ p b = true)) →
      (∃ x ∈ l, p x = true) → l.countP p = 1 := by
  intro l
  induction l with
  | nil => intro _ hex; simp at hex
  | cons a t ih =>
    intro hp hex
    rcases List.pairwise_cons.mp hp with ⟨ha, ht⟩
    by_cases hpa : p a = true
    · have ht0 : t.countP p = 0 := by
        apply List.countP_eq_zero.mpr
        intro x hx hpx
        exact ha x hx ⟨hpa, hpx⟩
      simp [List.countP_cons, hpa, ht0]
    · have hex' : ∃ x ∈ t, p x = true := by
        rcases hex with ⟨x, hx, hpx⟩
        rcases List.mem_cons.mp hx with rfl | hxt
        · exact absurd hpx hpa
        · exact ⟨x, hxt, hpx⟩
      simp [List.countP_cons, hpa, ih ht hex']

/-! ### Branch equations for the commands -/

theorem createUser_dup (s : Store) (u e p : String) (h : dupCheck s u e = true) :
    createUserCmd s u e p =
      { store := s, output := ["Username or email already taken!"], uncaught := false } := by
  unfold createUserCmd
  rw [if_pos h]

theorem createUser_ok (s : Store) (u e p : String) (h : dupCheck s u e = false) :
    createUserCmd s u e p =
      { store := { rows := s.rows ++ [mkUser s.nextId u e p], nextId := s.nextId + 1 },
        output := [showUser (mkUser s.nextId u e p)], uncaught := false } := by
  unfold createUserCmd
  rw [if_neg (by simp [h])]

theorem changeEmail_none (s : Store) (u e : String) (hf : findByUsername s u = none) :
    changeEmailCmd s u e =
      { store := s, output := [u ++ " not found! Unable to update email."],
        uncaught := false } := by
  unfold changeEmailCmd
  rw [hf]

theorem changeEmail_conflict (s : Store) (u e : String) (r : User)
    (hf : findByUsername s u = some r) (hc : emailConflict s r.id e = true) :
    changeEmailCmd s u e = { store := s, output := [], uncaught := true } := by
  unfold changeEmailCmd
  rw [hf]
  simp [hc]

theorem changeEmail_ok (s : Store) (u e : String) (r : User)
    (hf : findByUsername s u = some r) (hc : emailConflict s r.id e = false) :
    changeEmailCmd s u e =
      { store := { s with rows := updateEmailRows s.rows r.id e },
        output := ["Updated " ++ r.username ++ "\x27s email to " ++ e],
        uncaught := false } := by
  unfold changeEmailCmd
  rw [hf]
  simp [hc]

theorem deleteUser_none (s : Store) (u : String) (hf : findByUsername s u = none) :
    deleteUserCmd s u =
      { store := s, output := [u ++ " not found! Unable to delete user."],
        uncaught := false } := by
  unfold deleteUserCmd
  rw [hf]

theorem deleteUser_some (s : Store) (u : String) (r : User)
    (hf : findByUsername s u = some r) :
    deleteUserCmd s u =
      { store := { s with rows := s.rows.filter (fun v => v.id != r.id) },
        output := [u ++ " deleted"], uncaught := false } := by
  unfold deleteUserCmd
  rw [hf]

/-! ### Reading the Boolean store checks -/

theorem dupCheck_false_iff (s : Store) (u e : String) :
    dupCheck s u e = false ↔ ∀ v ∈ s.rows, v.username ≠ u ∧ v.email ≠ e := by
  unfold dupCheck
  rw [List.any_eq_false]
  constructor
  · intro h v hv
    have := h v hv
    simp only [Bool.or_eq_true, beq_iff_eq, not_or] at this
    exact this
  · intro h v hv
    have := h v hv
    simp [this.1, this.2]

theorem dupCheck_true_iff (s : Store) (u e : String) :
    dupCheck s u e = true ↔ ∃ v ∈ s.rows, v.username = u ∨ v.email = e := by
  unfold dupCheck
  rw [List.any_eq_true]
  constructor
  · rintro ⟨v, hv, hp⟩
    simp only [Bool.or_eq_true, beq_iff_eq] at hp
    exact ⟨v, hv, hp⟩
  · rintro ⟨v, hv, hp⟩
    refine ⟨v, hv, ?_⟩
    simp only [Bool.or_eq_true, beq_iff_eq]
    exact hp

theorem emailConflict_false_iff (s : Store) (i : Nat) (e : String) :
    emailConflict s i e = false ↔ ∀ v ∈ s.rows, v.id ≠ i → v.email ≠ e := by
  unfold emailConflict
  rw [List.any_eq_false]
  constructor
  · intro h v hv hid
    have := h v hv
    simp only [Bool.and_eq_true, bne_iff_ne, beq_iff_eq, not_and] at this
    exact this hid
  · intro h v hv
    simp only [Bool.and_eq_true, bne_iff_ne, beq_iff_eq, not_and]
    exact h v hv

theorem emailConflict_true_iff (s : Store) (i : Nat) (e : String) :
    emailConflict s i e = true ↔ ∃ v ∈ s.rows, v.id ≠ i ∧ v.email = e := by
  unfold emailConflict
  rw [List.any_eq_true]
  constructor
  · rintro ⟨v, hv, hp⟩
    simp only [Bool.and_eq_true, bne_iff_ne, beq_iff_eq] at hp
    exact ⟨v, hv, hp⟩
  · rintro ⟨v, hv, hp⟩
    refine ⟨v, hv, ?_⟩
    simp only [Bool.and_eq_true, bne_iff_ne, beq_iff_eq]
    exact hp

theorem findByUsername_eq_none_iff (s : Store) (u : String) :
    findByUsername s u = none ↔ ∀ v ∈ s.rows, v.username ≠ u := by
  unfold findByUsername
  rw [List.find?_eq_none]
  simp

theorem findByUsername_mem (s : Store) (u : String) (r : User)
    (hf : findByUsername s u = some r) : r ∈ s.rows :=
  List.mem_of_find?_eq_some hf

theorem findByUsername_username (s : Store) (u : String) (r : User)
    (hf : findByUsername s u = some r) : r.username = u := by
  have := List.find?_some hf
  simpa using this

/-! ### The single-field email update -/

theorem updEmail_id (i : Nat) (e : String) (v : User) :
    (if v.id == i then { v with email := e } else v).id = v.id := by
  by_cases h1 : v.id = i <;> simp [h1]

theorem updEmail_username (i : Nat) (e : String) (v : User) :
    (if v.id == i then { v with email := e } else v).username = v.username := by
  by_cases h1 : v.id = i <;> simp [h1]

theorem updEmail_password (i : Nat) (e : String) (v : User) :
    (if v.id == i then { v with email := e } else v).password = v.password := by
  by_cases h1 : v.id = i <;> simp [h1]

theorem updEmail_email (i : Nat) (e : String) (v : User) :
    (if v.id == i then { v with email := e } else v).email
      = if v.id = i then e else v.email := by
  by_cases h1 : v.id = i <;> simp [h1]

/-! ### Preservation of the store invariant -/

theorem storeInv_emptyStore : StoreInv emptyStore := by decide

theorem storeInv_bobStore : StoreInv bobStore := by decide

theorem storeInv_init (s : Store) : StoreInv (initCmd s).store := by
  have h : (initCmd s).store = bobStore := rfl
  rw [h]
  exact storeInv_bobStore

theorem storeInv_create (s : Store) (u e p : String) (h : StoreInv s) :
    StoreInv (createUserCmd s u e p).store := by
  by_cases hd : dupCheck s u e = true
  · rw [createUser_dup s u e p hd]
    exact h
  · have hd' : dupCheck s u e = false := by simpa using hd
    rw [createUser_ok s u e p hd']
    have hfr := (dupCheck_false_iff s u e).mp hd'
    constructor
    · rw [List.pairwise_append]
      refine ⟨h.1, by simp, ?_⟩
      intro a ha b hb
      have hb' : b = mkUser s.nextId u e p := by simpa using hb
      subst hb'
      exact ⟨Nat.ne_of_lt (h.2 a ha), (hfr a ha).1, (hfr a ha).2⟩
    · intro v hv
      rcases List.mem_append.mp hv with hv | hv
      · exact Nat.lt_succ_of_lt (h.2 v hv)
      · have hv' : v = mkUser s.nextId u e p := by simpa using hv
        subst hv'
        exact Nat.lt_succ_self _

theorem storeInv_changeEmail (s : Store) (u e : String) (h : StoreInv s) :
    StoreInv (changeEmailCmd s u e).store := by
  cases hf : findByUsername s u with
  | none =>
    rw [changeEmail_none s u e hf]
    exact h
  | some r =>
    by_cases hc : emailConflict s r.id e = true
    · rw [changeEmail_conflict s u e r hf hc]
      exact h
    · have hc' : emailConflict s r.id e = false := by simpa using hc
      rw [changeEmail_ok s u e r hf hc']
      have hnc := (emailConflict_false_iff s r.id e).mp hc'
      constructor
      · unfold updateEmailRows
        rw [List.pairwise_map]
        apply List.Pairwise.imp_of_mem ?_ h.1
        intro a b ha hb hab
        refine ⟨?_, ?_, ?_⟩
        · rw [updEmail_id, updEmail_id]
          exact hab.1
        · rw [updEmail_username, updEmail_username]
          exact hab.2.1
        · rw [updEmail_email, updEmail_email]
          by_cases h1 : a.id = r.id <;> by_cases h2 : b.id = r.id <;>
            simp only [h1, h2, if_pos, if_neg, if_true, if_false]
          · exact absurd (h1.trans h2.symm) hab.1
          · exact fun hbe => (hnc b hb h2) hbe.symm
          · exact hnc a ha h1
          · exact hab.2.2
      · intro v hv
        unfold updateEmailRows at hv
        rcases List.mem_map.mp hv with ⟨w, hw, hweq⟩
        have : v.id = w.id := by rw [← hweq, updEmail_id]
        rw [this]
        exact h.2 w hw

theorem storeInv_delete (s : Store) (u : String) (h : StoreInv s) :
    StoreInv (deleteUserCmd s u).store := by
  cases hf : findByUsername s u with
  | none =>
    rw [deleteUser_none s u hf]
    exact h
  | some r =>
    rw [deleteUser_some s u r hf]
    exact ⟨h.1.filter _, fun v hv => h.2 v (List.mem_of_mem_filter hv)⟩

theorem storeInv_step (s : Store) (o : Op) (h : StoreInv s) : StoreInv (step s o) := by
  cases o with
  | opInit => exact storeInv_init s
  | opGetUser q => exact h
  | opGetAll a b => exact h
  | opChangeEmail u e => exact storeInv_changeEmail s u e h
  | opCreate u e p => exact storeInv_create s u e p h
  | opDelete u => exact storeInv_delete s u h

theorem storeInv_foldl (ops : List Op) :
    ∀ s : Store, StoreInv s → StoreInv (ops.foldl step s) := by
  induction ops with
  | nil => intro s h; exact h
  | cons o t ih => intro s h; exact ih (step s o) (storeInv_step s o h)

theorem reachable_storeInv (s : Store) (h : Reachable s) : StoreInv s := by
  rcases h with ⟨ops, rfl⟩
  exact storeInv_foldl ops emptyStore storeInv_emptyStore

/-! ### Claim theorems -/

/-- C1: for every store state, a `create_user` invocation whose username or
email equals that of an existing live row leaves the store with exactly the
same rows as before (the transaction is rolled back; in particular, under
the store invariant, exactly one row with that username resp. email
remains), prints "Username or email already taken!", and exits 0 (no
exception escapes the command). -/
theorem C1_create_duplicate (s : Store) (u e p : String)
    (hdup : ∃ v ∈ s.rows, v.username = u ∨ v.email = e) :
    (createUserCmd s u e p).store = s ∧
    (createUserCmd s u e p).output = ["Username or email already taken!"] ∧
    (createUserCmd s u e p).uncaught = false ∧
    (StoreInv s → (∃ v ∈ s.rows, v.username = u) →
      s.rows.countP (fun v => v.username == u) = 1) ∧
    (StoreInv s → (∃ v ∈ s.rows, v.email = e) →
      s.rows.countP (fun v => v.email == e) = 1) := by
  have hd : dupCheck s u e = true := (dupCheck_true_iff s u e).mpr hdup
  rw [createUser_dup s u e p hd]
  refine ⟨rfl, rfl, rfl, ?_, ?_⟩
  · intro hInv hex
    apply countP_one_of_pairwise
    · apply hInv.1.imp
      intro a b hab hc
      simp only [beq_iff_eq] at hc
      exact hab.2.1 (hc.1.trans hc.2.symm)
    · rcases hex with ⟨v, hv, hveq⟩
      exact ⟨v, hv, by simp [hveq]⟩
  · intro hInv hex
    apply countP_one_of_pairwise
    · apply hInv.1.imp
      intro a b hab hc
      simp only [beq_iff_eq] at hc
      exact hab.2.2 (hc.1.trans hc.2.symm)
    · rcases hex with ⟨v, hv, hveq⟩
      exact ⟨v, hv, by simp [hveq]⟩

/-- C1 witness: creating a second `bo` on the two-user store is refused and
the store is unchanged, with exactly one `bo` row. -/
theorem C1_witness :
    (createUserCmd twoUserStore "bo" "zz@x.com" "pw2").store = twoUserStore ∧
    (createUserCmd twoUserStore "bo" "zz@x.com" "pw2").output
      = ["Username or email already taken!"] ∧
    (createUserCmd twoUserStore "bo" "zz@x.com" "pw2").uncaught = false ∧
    twoUserStore.rows.countP (fun v => v.username == "bo") = 1 := by
  have h := C1_create_duplicate twoUserStore "bo" "zz@x.com" "pw2" (by decide)
  exact ⟨h.1, h.2.1, h.2.2.1, h.2.2.2.1 (by decide) (by decide)⟩

/-- C4: `get_user` selects precisely the rows whose username or email
contains the query as a substring, leaves the store unchanged, prints
"No users found" when the selection is empty and otherwise prints exactly
the selected rows. -/
theorem C4_get_user_characterization (s : Store) (q : String) (v : User) :
    (v ∈ getUserMatches s q ↔
      v ∈ s.rows ∧ (strContains v.username q = true ∨ strContains v.email q = true)) ∧
    (getUserMatches s q = [] → (getUserCmd s q).output = ["No users found"]) ∧
    (getUserMatches s q ≠ [] →
      (getUserCmd s q).output = (getUserMatches s q).map showUser) ∧
    (getUserCmd s q).store = s ∧
    (getUserCmd s q).uncaught = false := by
  refine ⟨?_, ?_, ?_, rfl, rfl⟩
  · unfold getUserMatches
    rw [List.mem_filter]
    simp only [Bool.or_eq_true]
  · intro hmt
    simp [getUserCmd, hmt]
  · intro hne
    simp [getUserCmd, List.isEmpty_iff, hne]

/-- C4 witness: on the seeded store, an unmatched query prints
"No users found" and a matched query prints the matching rows. -/
theorem C4_witness :
    ((getUserCmd bobStore "zzz").output = ["No users found"]) ∧
    ((getUserCmd bobStore "bob").output = (getUserMatches bobStore "bob").map showUser) := by
  refine ⟨?_, ?_⟩
  · exact (C4_get_user_characterization bobStore "zzz"
      (mkUser 1 "bob" "bob@mail.com" "bobpass")).2.1 (by decide)
  · exact (C4_get_user_characterization bobStore "bob"
      (mkUser 1 "bob" "bob@mail.com" "bobpass")).2.2.1 (by decide)

/-- C6: `change_email` on a username absent from the store leaves the store
completely unchanged, reports the not-found message, and exits 0. -/
theorem C6_change_email_not_found (s : Store) (u e : String)
    (habs : ∀ v ∈ s.rows, v.username ≠ u) :
    (changeEmailCmd s u e).store = s ∧
    (changeEmailCmd s u e).output = [u ++ " not found! Unable to update email."] ∧
    (changeEmailCmd s u e).uncaught = false := by
  have hf : findByUsername s u = none := (findByUsername_eq_none_iff s u).mpr habs
  rw [changeEmail_none s u e hf]
  exact ⟨rfl, rfl, rfl⟩

/-- C6 witness: changing the email of the absent `alice` on the seeded
store is a no-op with a not-found report. -/
theorem C6_witness :
    (changeEmailCmd bobStore "alice" "a@x.com").store = bobStore ∧
    (changeEmailCmd bobStore "alice" "a@x.com").output
      = ["alice not found! Unable to update email."] ∧
    (changeEmailCmd bobStore "alice" "a@x.com").uncaught = false :=
  C6_change_email_not_found bobStore "alice" "a@x.com" (by decide)

/-- C7: from any store state, `initialize` resets the schema and seeds
exactly the single user `bob`/`bob@mail.com`; a subsequent
`get_user "bob"` returns exactly one record, with username `bob` and email
`bob@mail.com`. -/
theorem C7_init_then_get_bob (s : Store) :
    (initCmd s).store = bobStore ∧
    (initCmd s).output = ["Database Initialized"] ∧
    (initCmd s).uncaught = false ∧
    bobStore.rows = [mkUser 1 "bob" "bob@mail.com" "bobpass"] ∧
    getUserMatches bobStore "bob" = [mkUser 1 "bob" "bob@mail.com" "bobpass"] ∧
    (getUserMatches bobStore "bob").length = 1 ∧
    (mkUser 1 "bob" "bob@mail.com" "bobpass").username = "bob" ∧
    (mkUser 1 "bob" "bob@mail.com" "bobpass").email = "bob@mail.com" :=
  ⟨rfl, rfl, rfl, by decide, by decide, by decide, rfl, rfl⟩

/-- C9: when `change_email` finds the user but the new email collides with
a different existing row, the store-level uniqueness error escapes the
command uncaught (non-zero exit): nothing is printed — in particular no
"already taken" message — and the store is left unchanged only by the
store-level rollback, not by the command. -/
theorem C9_change_email_conflict_uncaught (s : Store) (u e : String) (r : User)
    (hf : findByUsername s u = some r)
    (hconf : ∃ v ∈ s.rows, v.id ≠ r.id ∧ v.email = e) :
    (changeEmailCmd s u e).store = s ∧
    (changeEmailCmd s u e).uncaught = true ∧
    (changeEmailCmd s u e).output = [] := by
  have hc : emailConflict s r.id e = true := (emailConflict_true_iff s r.id e).mpr hconf
  rw [changeEmail_conflict s u e r hf hc]
  exact ⟨rfl, rfl, rfl⟩

/-- C9 witness: on the two-user store, pointing the email of `bo` at the email of `bob` raises uncaught: no message, non-zero exit. -/
theorem C9_witness :
    (changeEmailCmd twoUserStore "bo" "bob@mail.com").store = twoUserStore ∧
    (changeEmailCmd twoUserStore "bo" "bob@mail.com").uncaught = true ∧
    (changeEmailCmd twoUserStore "bo" "bob@mail.com").output = [] :=
  C9_change_email_conflict_uncaught twoUserStore "bo" "bob@mail.com"
    (mkUser 2 "bo" "bo@mail.com" "pw") (by decide) (by decide)

/-- C10: a successful `change_email u e` rewrites the store as: the row
whose username is `u` gets email `e`, every other row is mapped to itself;
`nextId` is untouched; rows with a different username are still present
unchanged; and the updated row keeps its id, username and password. -/
theorem C10_change_email_frame (s : Store) (u e : String) (r : User)
    (hInv : StoreInv s)
    (hf : findByUsername s u = some r)
    (hok : (changeEmailCmd s u e).uncaught = false) :
    (changeEmailCmd s u e).store.rows
      = s.rows.map (fun v => if v.username == u then { v with email := e } else v) ∧
    (changeEmailCmd s u e).store.nextId = s.nextId ∧
    (∀ v ∈ s.rows, v.username ≠ u → v ∈ (changeEmailCmd s u e).store.rows) ∧
    ({ r with email := e }).id = r.id ∧
    ({ r with email := e }).username = r.username ∧
    ({ r with email := e }).password = r.password := by
  have hc : emailConflict s r.id e = false := by
    by_cases hc1 : emailConflict s r.id e = true
    · rw [changeEmail_conflict s u e r hf hc1] at hok
      simp at hok
    · simpa using hc1
  rw [changeEmail_ok s u e r hf hc]
  have hr := findByUsername_mem s u r hf
  have hru := findByUsername_username s u r hf
  have hmap : updateEmailRows s.rows r.id e
      = s.rows.map (fun v => if v.username == u then { v with email := e } else v) := by
    unfold updateEmailRows
    apply List.map_congr_left
    intro a ha
    by_cases hid : a.id = r.id
    · have har : a = r := by
        by_contra hne
        exact (hInv.1.forall rowRel_symm ha hr hne).1 hid
      subst har
      simp [hru]
    · have hne : a ≠ r := fun hh => hid (congrArg User.id hh)
      have hau : a.username ≠ u := by
        rw [← hru]
        exact (hInv.1.forall rowRel_symm ha hr hne).2.1
      simp [hid, hau]
  refine ⟨hmap, rfl, ?_, rfl, rfl, rfl⟩
  intro v hv hvu
  show v ∈ updateEmailRows s.rows r.id e
  rw [hmap]
  refine List.mem_map.mpr ⟨v, hv, ?_⟩
  simp [hvu]

/-- C10 witness: on the two-user store, changing the email of `bo` rewrites
only the email field of that row. -/
theorem C10_witness :
    (changeEmailCmd twoUserStore "bo" "new@x.com").store.rows
      = twoUserStore.rows.map
          (fun v => if v.username == "bo" then { v with email := "new@x.com" } else v) ∧
    (changeEmailCmd twoUserStore "bo" "new@x.com").store.nextId = twoUserStore.nextId ∧
    (∀ v ∈ twoUserStore.rows, v.username ≠ "bo" →
      v ∈ (changeEmailCmd twoUserStore "bo" "new@x.com").store.rows) ∧
    ({ mkUser 2 "bo" "bo@mail.com" "pw" with email := "new@x.com" }).id
      = (mkUser 2 "bo" "bo@mail.com" "pw").id ∧
    ({ mkUser 2 "bo" "bo@mail.com" "pw" with email := "new@x.com" }).username
      = (mkUser 2 "bo" "bo@mail.com" "pw").username ∧
    ({ mkUser 2 "bo" "bo@mail.com" "pw" with email := "new@x.com" }).password
      = (mkUser 2 "bo" "bo@mail.com" "pw").password :=
  C10_change_email_frame twoUserStore "bo" "new@x.com"
    (mkUser 2 "bo" "bo@mail.com" "pw") (by decide) (by decide) (by decide)

/-- C5: `get_all_users` defaults to limit 10 and offset 0; its page is the
first `limit` rows after skipping `offset` rows of the stored order, hence
at most `limit` rows; and on a store with at least two rows, pages
(limit 1, offset 0) and (limit 1, offset 1) are the disjoint singletons of
the first two stored rows. -/
theorem C5_pagination (s : Store) (lim off : Nat)
    (h2 : 2 ≤ s.rows.length) (hInv : StoreInv s) :
    defaultLimit = 10 ∧ defaultOffset = 0 ∧
    getAllUsersDefault s = getAllUsersCmd s 10 0 ∧
    getAllUsersList s lim off = (s.rows.drop off).take lim ∧
    (getAllUsersList s lim off).length ≤ lim ∧
    (∃ a b, s.rows.head? = some a ∧ s.rows.tail.head? = some b ∧
      getAllUsersList s 1 0 = [a] ∧ getAllUsersList s 1 1 = [b] ∧ a ≠ b) := by
  refine ⟨rfl, rfl, rfl, rfl, ?_, ?_⟩
  · unfold getAllUsersList
    rw [List.length_take]
    exact Nat.min_le_left _ _
  · obtain ⟨a, b, t, hl⟩ : ∃ a b t, s.rows = a :: b :: t := by
      cases hrows : s.rows with
      | nil =>
        rw [hrows] at h2
        simp at h2
      | cons a t1 =>
        cases t1 with
        | nil =>
          rw [hrows] at h2
          simp at h2
        | cons b t => exact ⟨a, b, t, rfl⟩
    have hpair := hInv.1
    rw [hl] at hpair
    have hab : RowRel a b := (List.pairwise_cons.mp hpair).1 b (by simp)
    refine ⟨a, b, by simp [hl], by simp [hl], ?_, ?_, ?_⟩
    · simp [getAllUsersList, hl]
    · simp [getAllUsersList, hl]
    · exact fun hh => hab.1 (congrArg User.id hh)

/-- C5 witness: the two pages of size one on the two-user store are the
two seeded rows, in stored order, and differ. -/
theorem C5_witness :
    defaultLimit = 10 ∧ defaultOffset = 0 ∧
    getAllUsersDefault twoUserStore = getAllUsersCmd twoUserStore 10 0 ∧
    getAllUsersList twoUserStore 1 0 = (twoUserStore.rows.drop 0).take 1 ∧
    (getAllUsersList twoUserStore 1 0).length ≤ 1 ∧
    (∃ a b, twoUserStore.rows.head? = some a ∧ twoUserStore.rows.tail.head? = some b ∧
      getAllUsersList twoUserStore 1 0 = [a] ∧ getAllUsersList twoUserStore 1 1 = [b] ∧
      a ≠ b) :=
  C5_pagination twoUserStore 1 0 (by decide) (by decide)

/-! ### Preservation of "exactly one row with username u" along traces -/

theorem usernameCount_step (s : Store) (o : Op) (u : String)
    (hInv : StoreInv s) (h1 : o ≠ Op.opInit) (h2 : o ≠ Op.opDelete u)
    (hc : s.rows.countP (fun v => v.username == u) = 1) :
    (step s o).rows.countP (fun v => v.username == u) = 1 := by
  cases o with
  | opInit => exact absurd rfl h1
  | opGetUser q => exact hc
  | opGetAll a b => exact hc
  | opCreate v e p =>
    show (createUserCmd s v e p).store.rows.countP _ = 1
    by_cases hd : dupCheck s v e = true
    · rw [createUser_dup s v e p hd]
      exact hc
    · have hd' : dupCheck s v e = false := by simpa using hd
      rw [createUser_ok s v e p hd']
      have hfr := (dupCheck_false_iff s v e).mp hd'
      rw [List.countP_append]
      by_cases hvu : v = u
      · exfalso
        subst hvu
        have hpos : 0 < s.rows.countP (fun w => w.username == v) := by
          rw [hc]
          exact Nat.zero_lt_one
        rcases List.countP_pos_iff.mp hpos with ⟨x, hx, hpx⟩
        exact (hfr x hx).1 (by simpa using hpx)
      · have hz : (([mkUser s.nextId v e p] : List User).countP
            (fun w => w.username == u)) = 0 := by
          simp [mkUser, hvu]
        rw [hz, hc]
  | opChangeEmail w e =>
    show (changeEmailCmd s w e).store.rows.countP _ = 1
    cases hf : findByUsername s w with
    | none =>
      rw [changeEmail_none s w e hf]
      exact hc
    | some r =>
      by_cases hcf : emailConflict s r.id e = true
      · rw [changeEmail_conflict s w e r hf hcf]
        exact hc
      · have hcf' : emailConflict s r.id e = false := by simpa using hcf
        rw [changeEmail_ok s w e r hf hcf']
        show (updateEmailRows s.rows r.id e).countP _ = 1
        unfold updateEmailRows
        rw [List.countP_map]
        have hcomp : ((fun v : User => v.username == u) ∘
              fun v => if v.id == r.id then { v with email := e } else v)
            = fun v : User => v.username == u := by
          funext v
          simp only [Function.comp_apply, updEmail_username]
        rw [hcomp]
        exact hc
  | opDelete v =>
    have hvu : v ≠ u := fun hh => h2 (by rw [hh])
    show (deleteUserCmd s v).store.rows.countP _ = 1
    cases hf : findByUsername s v with
    | none =>
      rw [deleteUser_none s v hf]
      exact hc
    | some r =>
      rw [deleteUser_some s v r hf]
      show (s.rows.filter (fun w => w.id != r.id)).countP _ = 1
      rw [List.countP_filter, ← hc]
      apply List.countP_congr
      intro x hx
      have hr := findByUsername_mem s v r hf
      have hrv := findByUsername_username s v r hf
      simp only [Bool.and_eq_true, bne_iff_ne, beq_iff_eq]
      constructor
      · exact fun hh => hh.1
      · intro hxu
        refine ⟨hxu, ?_⟩
        intro hid
        have hxr : x ≠ r := by
          intro hh
          rw [hh, hrv] at hxu
          exact hvu hxu
        exact (hInv.1.forall rowRel_symm hx hr hxr).1 hid

theorem usernameCount_foldl (u : String) (ops : List Op) :
    ∀ s : Store, StoreInv s →
      (∀ o ∈ ops, o ≠ Op.opInit ∧ o ≠ Op.opDelete u) →
      s.rows.countP (fun v => v.username == u) = 1 →
      (ops.foldl step s).rows.countP (fun v => v.username == u) = 1 := by
  induction ops with
  | nil =>
    intro s _ _ hc
    exact hc
  | cons o t ih =>
    intro s hInv hops hc
    have ho := hops o (by simp)
    exact ih (step s o) (storeInv_step s o hInv)
      (fun o' ho' => hops o' (by simp [ho']))
      (usernameCount_step s o u hInv ho.1 ho.2 hc)

/-- C3 (amended): if `create_user u e p` succeeds on an invariant-holding
store and no later operation is `initialize` or `delete_user u`, then a
later `get_user u` returns at least one record, and exactly one of the
returned records has username equal to `u`.  (As literally stated the
claim is false: `get_user` matches by substring, so other rows whose
username or email merely contains `u` are returned as well — see the
counterexample.) -/
theorem C3_created_user_found (s : Store) (u e p : String) (ops : List Op)
    (hInv : StoreInv s)
    (hok : (createUserCmd s u e p).store ≠ s)
    (hops : ∀ o ∈ ops, o ≠ Op.opInit ∧ o ≠ Op.opDelete u) :
    (getUserMatches (ops.foldl step (createUserCmd s u e p).store) u).countP
        (fun v => v.username == u) = 1 ∧
    1 ≤ (getUserMatches (ops.foldl step (createUserCmd s u e p).store) u).length := by
  have hd : dupCheck s u e = false := by
    by_cases hd1 : dupCheck s u e = true
    · rw [createUser_dup s u e p hd1] at hok
      exact absurd rfl hok
    · simpa using hd1
  have hs1inv : StoreInv (createUserCmd s u e p).store := storeInv_create s u e p hInv
  have hc1 : (createUserCmd s u e p).store.rows.countP (fun v => v.username == u) = 1 := by
    rw [createUser_ok s u e p hd]
    show (s.rows ++ [mkUser s.nextId u e p]).countP _ = 1
    rw [List.countP_append]
    have h0 : s.rows.countP (fun v => v.username == u) = 0 := by
      apply List.countP_eq_zero.mpr
      intro x hx
      simp only [beq_iff_eq]
      exact ((dupCheck_false_iff s u e).mp hd x hx).1
    simp [h0, mkUser]
  have hc2 := usernameCount_foldl u ops (createUserCmd s u e p).store hs1inv hops hc1
  have hmain : (getUserMatches (ops.foldl step (createUserCmd s u e p).store) u).countP
      (fun v => v.username == u) = 1 := by
    unfold getUserMatches
    rw [List.countP_filter, ← hc2]
    apply List.countP_congr
    intro x _
    simp only [Bool.and_eq_true, Bool.or_eq_true, beq_iff_eq]
    constructor
    · exact fun hh => hh.1
    · intro hxu
      refine ⟨hxu, Or.inl ?_⟩
      rw [hxu]
      exact strContains_refl u
  refine ⟨hmain, ?_⟩
  calc 1 = (getUserMatches (ops.foldl step (createUserCmd s u e p).store) u).countP
        (fun v => v.username == u) := hmain.symm
    _ ≤ _ := List.countP_le_length _

/-- C3 witness: create `carol` on the seeded store, run an unrelated
create, and `get_user carol` returns exactly one record with username
`carol`. -/
theorem C3_witness :
    (getUserMatches ([Op.opCreate "dave" "d@x.com" "pw2"].foldl step
        (createUserCmd bobStore "carol" "c@x.com" "pw").store) "carol").countP
      (fun v => v.username == "carol") = 1 ∧
    1 ≤ (getUserMatches ([Op.opCreate "dave" "d@x.com" "pw2"].foldl step
        (createUserCmd bobStore "carol" "c@x.com" "pw").store) "carol").length :=
  C3_created_user_found bobStore "carol" "c@x.com" "pw"
    [Op.opCreate "dave" "d@x.com" "pw2"] (by decide) (by decide) (by decide)

/-- C3 counterexample: after `initialize`, `create_user bo bo@mail.com pw`
succeeds, nothing deletes `bo`, yet `get_user bo` returns two records, not
exactly one: the seeded `bob` also matches the substring query `bo`. -/
theorem C3_counterexample :
    (createUserCmd bobStore "bo" "bo@mail.com" "pw").store ≠ bobStore ∧
    (createUserCmd bobStore "bo" "bo@mail.com" "pw").output
      ≠ ["Username or email already taken!"] ∧
    (getUserMatches (createUserCmd bobStore "bo" "bo@mail.com" "pw").store "bo").length
      = 2 ∧
    (getUserCmd (createUserCmd bobStore "bo" "bo@mail.com" "pw").store "bo").output.length
      = 2 := by
  decide

/-- C8 (amended): under the store invariant, `delete_user u` on a present
username physically removes every row with username `u`, so a subsequent
`get_user u` returns no record whose username equals `u`; it prints
"No users found" whenever the username and email of every surviving row avoid
`u` as a substring.  (As literally stated the claim is false: `get_user`
matches by substring, so surviving rows that merely contain `u` are still
returned — see the counterexample.) -/
theorem C8_delete_then_get (s : Store) (u : String)
    (hInv : StoreInv s)
    (hpres : ∃ v ∈ s.rows, v.username = u) :
    (∀ v ∈ (deleteUserCmd s u).store.rows, v.username ≠ u) ∧
    (getUserMatches (deleteUserCmd s u).store u).countP (fun v => v.username == u) = 0 ∧
    ((∀ v ∈ (deleteUserCmd s u).store.rows,
        strContains v.username u = false ∧ strContains v.email u = false) →
      (getUserCmd (deleteUserCmd s u).store u).output = ["No users found"]) := by
  obtain ⟨r, hf⟩ : ∃ r, findByUsername s u = some r := by
    cases hf : findByUsername s u with
    | none =>
      rcases hpres with ⟨v, hv, hvu⟩
      exact absurd hvu ((findByUsername_eq_none_iff s u).mp hf v hv)
    | some r => exact ⟨r, rfl⟩
  have hr := findByUsername_mem s u r hf
  have hru := findByUsername_username s u r hf
  have hgone : ∀ v ∈ (deleteUserCmd s u).store.rows, v.username ≠ u := by
    rw [deleteUser_some s u r hf]
    intro v hv hvu
    have hv' := List.mem_filter.mp hv
    have hvid : v.id ≠ r.id := by simpa using hv'.2
    have hvr : v ≠ r := fun hh => hvid (congrArg User.id hh)
    exact (hInv.1.forall rowRel_symm hv'.1 hr hvr).2.1 (hvu.trans hru.symm)
  refine ⟨hgone, ?_, ?_⟩
  · apply List.countP_eq_zero.mpr
    intro v hv
    have hv' : v ∈ (deleteUserCmd s u).store.rows :=
      (List.mem_filter.mp hv).1
    simp only [beq_iff_eq]
    exact hgone v hv'
  · intro hnone
    have hempty : getUserMatches (deleteUserCmd s u).store u = [] := by
      apply List.filter_eq_nil_iff.mpr
      intro v hv
      simp [(hnone v hv).1, (hnone v hv).2]
    simp [getUserCmd, hempty]

/-- C8 witness: deleting the only user `bob` and then querying `bob` finds
nothing and prints "No users found". -/
theorem C8_witness :
    (∀ v ∈ (deleteUserCmd bobStore "bob").store.rows, v.username ≠ "bob") ∧
    (getUserMatches (deleteUserCmd bobStore "bob").store "bob").countP
      (fun v => v.username == "bob") = 0 ∧
    (getUserCmd (deleteUserCmd bobStore "bob").store "bob").output
      = ["No users found"] := by
  have h := C8_delete_then_get bobStore "bob" (by decide) (by decide)
  exact ⟨h.1, h.2.1, h.2.2 (by decide)⟩

/-- C8 counterexample: on the store holding `bob` and `bo`, deleting `bo`
and then running `get_user bo` still returns one record (`bob`, whose
username contains `bo`), so the output is not "No users found". -/
theorem C8_counterexample :
    (∃ v ∈ twoUserStore.rows, v.username = "bo") ∧
    (getUserMatches (deleteUserCmd twoUserStore "bo").store "bo").length = 1 ∧
    (getUserCmd (deleteUserCmd twoUserStore "bo").store "bo").output
      ≠ ["No users found"] := by
  decide

/-- C2 (amended): every store state reachable from fresh, empty tables has
pairwise-distinct usernames and pairwise-distinct emails across its live
rows; every operation preserves the store invariant; and a mutation that
would violate uniqueness — a duplicate insert, or an email update
colliding with a different row — leaves the store unchanged.
(Non-emptiness of username/email is NOT enforced by the code: the
non-emptiness part of the claim fails, see the counterexample.) -/
theorem C2_uniqueness_invariant (s : Store) (h : Reachable s) :
    (s.rows.Pairwise fun a b => a.username ≠ b.username) ∧
    (s.rows.Pairwise fun a b => a.email ≠ b.email) ∧
    (∀ o : Op, StoreInv (step s o)) ∧
    (∀ u e p, (∃ v ∈ s.rows, v.username = u ∨ v.email = e) →
      (createUserCmd s u e p).store = s) ∧
    (∀ u e r, findByUsername s u = some r →
      (∃ v ∈ s.rows, v.id ≠ r.id ∧ v.email = e) →
      (changeEmailCmd s u e).store = s) := by
  have hInv := reachable_storeInv s h
  refine ⟨hInv.1.imp (fun hab => hab.2.1), hInv.1.imp (fun hab => hab.2.2),
    fun o => storeInv_step s o hInv, ?_, ?_⟩
  · intro u e p hdup
    rw [createUser_dup s u e p ((dupCheck_true_iff s u e).mpr hdup)]
  · intro u e r hf hconf
    rw [changeEmail_conflict s u e r hf ((emailConflict_true_iff s r.id e).mpr hconf)]

/-- C2 witness: the two-user store is reachable (`initialize`, then a
successful create) and enjoys all the listed uniqueness guarantees. -/
theorem C2_witness :
    (twoUserStore.rows.Pairwise fun a b => a.username ≠ b.username) ∧
    (twoUserStore.rows.Pairwise fun a b => a.email ≠ b.email) ∧
    (∀ o : Op, StoreInv (step twoUserStore o)) ∧
    (∀ u e p, (∃ v ∈ twoUserStore.rows, v.username = u ∨ v.email = e) →
      (createUserCmd twoUserStore u e p).store = twoUserStore) ∧
    (∀ u e r, findByUsername twoUserStore u = some r →
      (∃ v ∈ twoUserStore.rows, v.id ≠ r.id ∧ v.email = e) →
      (changeEmailCmd twoUserStore u e).store = twoUserStore) :=
  C2_uniqueness_invariant twoUserStore
    ⟨[Op.opInit, Op.opCreate "bo" "bo@mail.com" "pw"], rfl⟩

/-- C2 counterexample: the code enforces no non-emptiness of username or
email — creating a user with empty username and email on fresh tables
succeeds, so a reachable store holds a row whose username and email are
both the empty string. -/
theorem C2_counterexample :
    Reachable (step emptyStore (Op.opCreate "" "" "p")) ∧
    ∃ v ∈ (step emptyStore (Op.opCreate "" "" "p")).rows,
      v.username = "" ∧ v.email = "" :=
  ⟨⟨[Op.opCreate "" "" "p"], rfl⟩, by decide⟩
